import Mathlib

/-!
# Habit tracker: verification of the statistics and scheduling engine

A shallow embedding of the aggregation and idempotent-guard logic of the
habit tracker (`src/Code.js`).  Spreadsheet cell values are modelled by the
inductive type `Cell` (strings, numbers, date values, null); a sheet row of
the Tracking sheet is a `Row` with one `Cell` per column.  Date values are
modelled as natural-number timestamps counted in minutes; one calendar day
is 1440 minutes, so formatting a date as `yyyy-MM-dd` corresponds to the
day number `t / 1440`, and `setHours(0,0,0,0)` corresponds to
`t / 1440 * 1440`.  Day-of-week follows the Unix convention that day 0 is a
Thursday, with `getDay()` numbering Sunday as 0.

The clock (`new Date()`) is passed in explicitly as a `now : Nat` parameter;
the persisted script properties and the mail transport of `sendDailyReminder`
are modelled by an explicit `TrackerState` carrying the rows, the
`lastReminderDate` property, and a counter of sent notifications.
-/

namespace HabitTracker

/-- A spreadsheet cell value as returned by `getValues()`: a string, a
number, a `Date` object (timestamp in minutes), or null. -/
inductive Cell where
  | str (s : String)
  | num (q : Rat)
  | date (t : Nat)
  | null
deriving DecidableEq

/-- One data row of the Tracking sheet (header excluded), one field per
column of `COL`. -/
structure Row where
  date : Cell
  exerciseType : Cell
  exerciseMin : Cell
  beerCount : Cell
  weightKg : Cell
  notes : Cell
deriving DecidableEq

/-- JavaScript truthiness of a cell value: empty string, the number 0 and
null are falsy; Date objects are always truthy. -/
def truthy : Cell → Bool
  | Cell.str s => decide (s ≠ "")
  | Cell.num q => decide (q ≠ 0)
  | Cell.date _ => true
  | Cell.null => false

/-- The exercise-day test used throughout the source:
`exerciseType && exerciseType !== "Rest Day" && exerciseType !== ""`. -/
def isExerciseCell (c : Cell) : Bool :=
  truthy c && decide (c ≠ Cell.str "Rest Day") && decide (c ≠ Cell.str "")

/-- A row counts as an exercise day when its exercise-type cell passes
`isExerciseCell`. -/
def isExerciseRow (r : Row) : Bool :=
  isExerciseCell r.exerciseType

/-- The no-alcohol test of the source:
`beerCount === 0 || beerCount === "" || beerCount === null`. -/
def noAlcoholCell (c : Cell) : Bool :=
  decide (c = Cell.num 0) || decide (c = Cell.str "") || decide (c = Cell.null)

/-- The backward streak walk shared by `calculateExerciseStreak` and
`calculateNoAlcoholStreak`: the source loops `i` from `data.length - 1`
down to `0`, incrementing while the predicate holds and breaking at the
first row where it fails.  Applied to the reversed row list. -/
def streakLoop (p : Row → Bool) : List Row → Nat
  | [] => 0
  | r :: rs => if p r then streakLoop p rs + 1 else 0

/-- `calculateExerciseStreak` from the source: walk the tracking rows from
the most recent backward, counting consecutive exercise rows. -/
def calculateExerciseStreak (data : List Row) : Nat :=
  streakLoop isExerciseRow data.reverse

/-- `calculateNoAlcoholStreak` from the source: walk the tracking rows from
the most recent backward, counting consecutive no-alcohol rows. -/
def calculateNoAlcoholStreak (data : List Row) : Nat :=
  streakLoop (fun r => noAlcoholCell r.beerCount) data.reverse

/-- One iteration of the `calculateLongestExerciseStreak` loop: the
accumulator is `(current, longest)`; on an exercise row `current++` and
`longest = max(longest, current)`, otherwise `current = 0`. -/
def longestStep (acc : Nat × Nat) (r : Row) : Nat × Nat :=
  if isExerciseRow r then (acc.1 + 1, max acc.2 (acc.1 + 1)) else (0, acc.2)

/-- `calculateLongestExerciseStreak` from the source: a single forward pass
over the rows maintaining `current` and `longest`. -/
def calculateLongestExerciseStreak (data : List Row) : Nat :=
  (data.foldl longestStep (0, 0)).2

/-- `normalizeDate_` from the source: `setHours(0,0,0,0)`, i.e. truncate a
timestamp to the start of its day. -/
def normalizeDate (t : Nat) : Nat :=
  t / 1440 * 1440

/-- The day number of a timestamp; two timestamps format to the same
`yyyy-MM-dd` string exactly when their day numbers agree. -/
def todayOf (now : Nat) : Nat :=
  now / 1440

/-- JavaScript `getDay()`: 0 = Sunday, …, 6 = Saturday; day 0 of the model
is a Thursday. -/
def dayOfWeek (t : Nat) : Nat :=
  (t / 1440 + 4) % 7

/-- The week-window lower bound of `getWeekStats_`:
`mondayOffset = dayOfWeek === 0 ? 6 : dayOfWeek - 1`, then `now` moved back
by that many days and truncated to the start of the day. -/
def mondayOf (now : Nat) : Nat :=
  (now / 1440 - (if dayOfWeek now = 0 then 6 else dayOfWeek now - 1)) * 1440

/-- The month-window lower bound of `getMonthStats_`: thirty days before
`now`, at the start of the day. -/
def thirtyDaysAgoOf (now : Nat) : Nat :=
  (now / 1440 - 30) * 1440

/-- Row-matches-day test used by `addTodayRow` and `sendDailyReminder`:
the cell must be a `Date` (`instanceof Date`) and format to the same
`yyyy-MM-dd` string as `now`. -/
def isTodayRow (today : Nat) (r : Row) : Bool :=
  match r.date with
  | Cell.date t => decide (t / 1440 = today)
  | _ => false

/-- The row appended by `addTodayRow` when no row for today exists: only
the date cell is populated (`setValue(new Date())`); every other cell is
left blank and reads back as the empty string. -/
def freshRow (now : Nat) : Row :=
  { date := Cell.date now, exerciseType := Cell.str "", exerciseMin := Cell.str "",
    beerCount := Cell.str "", weightKg := Cell.str "", notes := Cell.str "" }

/-- `addTodayRow` from the source: scan the existing rows for one whose
date cell is a `Date` formatting to today; if found, return unchanged,
otherwise append a fresh row (date only) after the last row. -/
def addTodayRow (now : Nat) (rows : List Row) : List Row :=
  if rows.any (isTodayRow (todayOf now)) then rows else rows ++ [freshRow now]

/-- Result record of `getWeekStats_`. -/
structure WeekStats where
  exerciseDays : Nat
  totalMinutes : Rat
  totalBeers : Rat
  avgWeight : Option Rat
deriving DecidableEq

/-- Loop-local accumulator of `getWeekStats_`. -/
structure WeekAcc where
  exerciseDays : Nat
  totalMinutes : Rat
  totalBeers : Rat
  weights : List Rat
deriving DecidableEq

/-- One iteration of the `getWeekStats_` loop: skip rows whose date cell is
not a `Date` and rows normalizing before Monday; otherwise count exercise
days, add `typeof === "number"` minutes and beers, and collect positive
numeric weights. -/
def weekStep (monday : Nat) (acc : WeekAcc) (r : Row) : WeekAcc :=
  match r.date with
  | Cell.date t =>
    if normalizeDate t < monday then acc
    else
      { exerciseDays := acc.exerciseDays + (if isExerciseRow r then 1 else 0),
        totalMinutes := acc.totalMinutes +
          (match r.exerciseMin with | Cell.num q => q | _ => 0),
        totalBeers := acc.totalBeers +
          (match r.beerCount with | Cell.num q => q | _ => 0),
        weights := acc.weights ++
          (match r.weightKg with
           | Cell.num q => if 0 < q then [q] else []
           | _ => []) }
  | _ => acc

/-- `getWeekStats_` from the source, with the clock injected: aggregate all
rows whose normalized date is not before the most recent Monday;
`avgWeight` is the mean of the collected weights or null when none were
collected. -/
def getWeekStats_ (now : Nat) (data : List Row) : WeekStats :=
  { exerciseDays := (data.foldl (weekStep (mondayOf now)) ⟨0, 0, 0, []⟩).exerciseDays,
    totalMinutes := (data.foldl (weekStep (mondayOf now)) ⟨0, 0, 0, []⟩).totalMinutes,
    totalBeers := (data.foldl (weekStep (mondayOf now)) ⟨0, 0, 0, []⟩).totalBeers,
    avgWeight :=
      if 0 < (data.foldl (weekStep (mondayOf now)) ⟨0, 0, 0, []⟩).weights.length then
        some ((data.foldl (weekStep (mondayOf now)) ⟨0, 0, 0, []⟩).weights.sum /
          ((data.foldl (weekStep (mondayOf now)) ⟨0, 0, 0, []⟩).weights.length : Rat))
      else none }

/-- Result record of `getMonthStats_`.  The source returns `beerFreeRate`
as the string produced by `toFixed(0)`; it is modelled here as the natural
number that string denotes. -/
structure MonthStats where
  exerciseDays : Nat
  noAlcoholDays : Nat
  beerFreeRate : Nat
deriving DecidableEq

/-- One iteration of the `getMonthStats_` loop over the accumulator
`(totalDays, exerciseDays, noAlcoholDays)`: skip non-`Date` rows and rows
normalizing before the thirty-day cutoff, otherwise count the row and
classify it. -/
def monthStep (cutoff : Nat) (acc : Nat × Nat × Nat) (r : Row) : Nat × Nat × Nat :=
  match r.date with
  | Cell.date t =>
    if normalizeDate t < cutoff then acc
    else
      (acc.1 + 1,
       acc.2.1 + (if isExerciseRow r then 1 else 0),
       acc.2.2 + (if noAlcoholCell r.beerCount then 1 else 0))
  | _ => acc

/-- Rounding to the nearest integer with ties rounded up, on the exact
rational `p / q`: this is the value `((p/q)).toFixed(0)` denotes (the
ECMAScript `toFixed` picks the closest integer and the larger one on a
tie; the source computes the quotient of two small integer counters, where
the double-precision evaluation agrees with the exact rational). -/
def roundHalfUp (p q : Nat) : Nat :=
  (2 * p + q) / (2 * q)

/-- `getMonthStats_` from the source, with the clock injected: count rows
in the last-30-days window, classify exercise and no-alcohol days, and
compute `beerFreeRate = ((noAlcoholDays / totalDays) * 100).toFixed(0)`
when `totalDays > 0` and `"0"` otherwise (no division is attempted when
the window is empty). -/
def getMonthStats_ (now : Nat) (data : List Row) : MonthStats :=
  { exerciseDays := (data.foldl (monthStep (thirtyDaysAgoOf now)) (0, 0, 0)).2.1,
    noAlcoholDays := (data.foldl (monthStep (thirtyDaysAgoOf now)) (0, 0, 0)).2.2,
    beerFreeRate :=
      if 0 < (data.foldl (monthStep (thirtyDaysAgoOf now)) (0, 0, 0)).1 then
        roundHalfUp ((data.foldl (monthStep (thirtyDaysAgoOf now)) (0, 0, 0)).2.2 * 100)
          (data.foldl (monthStep (thirtyDaysAgoOf now)) (0, 0, 0)).1
      else 0 }

/-- Persisted state touched by `sendDailyReminder`: the tracking rows, the
`lastReminderDate` script property (null when never set), and a counter of
notifications handed to the mail transport. -/
structure TrackerState where
  rows : List Row
  lastReminderDate : Option Nat
  sentCount : Nat
deriving DecidableEq

/-- The "today's record already filled" test of `sendDailyReminder`: the
loop inspects the first row whose date cell is a `Date` formatting to
today (breaking there), and checks `exerciseType !== ""`. -/
def todayFilled (today : Nat) (rows : List Row) : Bool :=
  match rows.find? (isTodayRow today) with
  | some r => decide (r.exerciseType ≠ Cell.str "")
  | none => false

/-- `sendDailyReminder` from the source with an explicit mail outcome:
skip when the `lastReminderDate` property already equals today, skip when
today's row already has a non-empty exercise type; otherwise attempt the
send.  `sendOk = false` models `MailApp.sendEmail` throwing: the exception
propagates (first component `true`) before `setProperty` runs, so the
state — the marker included — is returned unchanged.  On a successful send
the marker is set to today afterwards. -/
def sendDailyReminderRun (sendOk : Bool) (now : Nat) (s : TrackerState) :
    Bool × TrackerState :=
  if s.lastReminderDate = some (todayOf now) then (false, s)
  else if todayFilled (todayOf now) s.rows then (false, s)
  else if sendOk then
    (false, { s with sentCount := s.sentCount + 1,
                     lastReminderDate := some (todayOf now) })
  else (true, s)

/-- `sendDailyReminder` on the normal path where the mail transport
succeeds. -/
def sendDailyReminder (now : Nat) (s : TrackerState) : TrackerState :=
  (sendDailyReminderRun true now s).2

/-- The week-window membership test implicit in the `getWeekStats_` loop:
the date cell is a `Date` and its normalized value is not before Monday. -/
def inWeekWindow (monday : Nat) (r : Row) : Bool :=
  match r.date with
  | Cell.date t => decide (¬ normalizeDate t < monday)
  | _ => false

/-- The month-window membership test implicit in the `getMonthStats_`
loop. -/
def inMonthWindow (cutoff : Nat) (r : Row) : Bool :=
  match r.date with
  | Cell.date t => decide (¬ normalizeDate t < cutoff)
  | _ => false

/-- Modelled from the spec: the record-store sort by ascending date that
the specification requires the Aggregation Engine to perform before any
streak or window computation.  No such sort exists in the source; rows are
keyed by the normalized value of their date cell (non-`Date` cells sort
first). -/
def dateKey (r : Row) : Nat :=
  match r.date with
  | Cell.date t => normalizeDate t
  | _ => 0

/-- Modelled from the spec: sort the record sequence by date ascending. -/
def sortByDate (data : List Row) : List Row :=
  List.insertionSort (fun a b => dateKey a ≤ dateKey b) data

/-- Modelled from the spec: the streak walk described by claim C1, in
which the backward walk additionally stops "at the first day with no
matching record", i.e. when the next older record is not dated exactly one
calendar day before the previous one.  Applied to the reversed row list,
carrying the day number of the previously visited record. -/
def specGapWalk : Option Nat → List Row → Nat
  | _, [] => 0
  | prev, r :: rs =>
    match r.date with
    | Cell.date t =>
      if (match prev with
          | none => true
          | some p => decide (t / 1440 + 1 = p)) && isExerciseRow r then
        specGapWalk (some (t / 1440)) rs + 1
      else 0
    | _ => 0

/-- Modelled from the spec: the current-exercise-streak computation of
claim C1, where a calendar-date gap between adjacent records breaks the
streak. -/
def specGapStreak (data : List Row) : Nat :=
  specGapWalk none data.reverse

/-- A row dated `t` recording a gym session, used to probe window
boundaries. -/
def gymRowAt (t : Nat) : Row :=
  { freshRow t with exerciseType := Cell.str "Gym" }

/-- The specification's walkthrough scenario: Gym, Rest Day, Running,
Running gives a current streak of 2 and a longest streak of 2, and with
all beer cells blank a no-alcohol streak of 4. -/
example :
    calculateExerciseStreak
      [gymRowAt 0, { freshRow 1440 with exerciseType := Cell.str "Rest Day" },
       { freshRow 2880 with exerciseType := Cell.str "Running" },
       { freshRow 4320 with exerciseType := Cell.str "Running" }] = 2 ∧
    calculateLongestExerciseStreak
      [gymRowAt 0, { freshRow 1440 with exerciseType := Cell.str "Rest Day" },
       { freshRow 2880 with exerciseType := Cell.str "Running" },
       { freshRow 4320 with exerciseType := Cell.str "Running" }] = 2 ∧
    calculateNoAlcoholStreak
      [gymRowAt 0, { freshRow 1440 with exerciseType := Cell.str "Rest Day" },
       { freshRow 2880 with exerciseType := Cell.str "Running" },
       { freshRow 4320 with exerciseType := Cell.str "Running" }] = 4 := by
  decide

/-- The backward streak walk counts the longest prefix of the reversed row
list satisfying the predicate. -/
lemma streakLoop_eq_takeWhile (p : Row → Bool) :
    ∀ l : List Row, streakLoop p l = (l.takeWhile p).length := by
  intro l
  induction l with
  | nil => rfl
  | cons r rs ih =>
    by_cases h : p r
    · simp [streakLoop, List.takeWhile_cons, h, ih]
    · simp [streakLoop, List.takeWhile_cons, h]

/-- The streak walk is unchanged by any row transformation that preserves
the predicate. -/
lemma streakLoop_map (p : Row → Bool) (f : Row → Row) (h : ∀ r, p (f r) = p r) :
    ∀ l : List Row, streakLoop p (l.map f) = streakLoop p l := by
  intro l
  induction l with
  | nil => rfl
  | cons r rs ih => simp [streakLoop, h, ih]

/-- C1 (amended): `calculateExerciseStreak` walks the rows from the most
recent backward counting consecutive exercise rows and stops at the first
non-exercise row; it never inspects the date column, so a calendar-date
gap between adjacent records does not break the streak (overwriting every
date cell with an arbitrary value leaves the result unchanged), and in
particular a missing record for today does not break it. -/
theorem calculateExerciseStreak_trailing_run (data : List Row) (c : Cell) :
    calculateExerciseStreak data = (data.reverse.takeWhile isExerciseRow).length ∧
    calculateExerciseStreak (data.map (fun r => { r with date := c })) =
      calculateExerciseStreak data := by
  constructor
  · exact streakLoop_eq_takeWhile isExerciseRow data.reverse
  · unfold calculateExerciseStreak
    rw [← List.map_reverse]
    exact streakLoop_map isExerciseRow (fun r => { r with date := c })
      (fun r => rfl) data.reverse

/-- C1 (counterexample): two exercise records dated two calendar days
apart.  The walk described by the claim stops at the date gap and yields
1, but the source's `calculateExerciseStreak` counts both rows and yields
2: a calendar-date gap between adjacent records does not break the
streak. -/
theorem calculateExerciseStreak_gap_counterexample :
    calculateExerciseStreak [gymRowAt 0, gymRowAt 2880] = 2 ∧
    specGapStreak [gymRowAt 0, gymRowAt 2880] = 1 := by
  decide

/-- The forward pass of `calculateLongestExerciseStreak` keeps the current
trailing run in its first accumulator component, bounded by the second. -/
lemma longestStep_foldl_invariant (data : List Row) :
    (data.foldl longestStep (0, 0)).1 = calculateExerciseStreak data ∧
    (data.foldl longestStep (0, 0)).1 ≤ (data.foldl longestStep (0, 0)).2 := by
  induction data using List.reverseRecOn with
  | nil => exact ⟨rfl, Nat.le_refl 0⟩
  | append_singleton ys x ih =>
    obtain ⟨h1, h2⟩ := ih
    have hfold : (ys ++ [x]).foldl longestStep (0, 0) =
        longestStep (ys.foldl longestStep (0, 0)) x := by
      rw [List.foldl_append]
      rfl
    have hstreak : calculateExerciseStreak (ys ++ [x]) =
        if isExerciseRow x then calculateExerciseStreak ys + 1 else 0 := by
      unfold calculateExerciseStreak
      rw [List.reverse_append, List.reverse_singleton, List.singleton_append]
      rfl
    by_cases hx : isExerciseRow x
    · have hf : (ys ++ [x]).foldl longestStep (0, 0) =
          ((ys.foldl longestStep (0, 0)).1 + 1,
           max (ys.foldl longestStep (0, 0)).2 ((ys.foldl longestStep (0, 0)).1 + 1)) := by
        rw [hfold]
        unfold longestStep
        rw [if_pos hx]
      rw [hf, hstreak, if_pos hx]
      exact ⟨by rw [h1], le_max_right _ _⟩
    · have hf : (ys ++ [x]).foldl longestStep (0, 0) =
          (0, (ys.foldl longestStep (0, 0)).2) := by
        rw [hfold]
        unfold longestStep
        rw [if_neg hx]
      rw [hf, hstreak, if_neg hx]
      exact ⟨rfl, Nat.zero_le _⟩

/-- C9: the longest exercise streak found by the forward pass is at least
the current (trailing) exercise streak counted by the backward walk, for
every record sequence. -/
theorem calculateExerciseStreak_le_longest (data : List Row) :
    calculateExerciseStreak data ≤ calculateLongestExerciseStreak data := by
  obtain ⟨h1, h2⟩ := longestStep_foldl_invariant data
  show calculateExerciseStreak data ≤ (data.foldl longestStep (0, 0)).2
  rw [← h1]
  exact h2

/-- C3: `sendDailyReminder` is idempotent for a fixed day — running it
twice with the same `now` sends at most one notification, because a
successful send sets `lastReminderDate` to today and the second run skips;
a run is also skipped (a strict no-op) when the marker already equals
today or when today's row already carries a non-empty exercise type. -/
theorem sendDailyReminder_at_most_once (now : Nat) (s : TrackerState) :
    sendDailyReminder now (sendDailyReminder now s) = sendDailyReminder now s ∧
    (sendDailyReminder now s).sentCount ≤ s.sentCount + 1 ∧
    (s.lastReminderDate = some (todayOf now) → sendDailyReminder now s = s) ∧
    (todayFilled (todayOf now) s.rows = true → sendDailyReminder now s = s) := by
  by_cases h1 : s.lastReminderDate = some (todayOf now)
  · have he : sendDailyReminder now s = s := by
      unfold sendDailyReminder sendDailyReminderRun
      rw [if_pos h1]
    exact ⟨by rw [he, he], by rw [he]; exact Nat.le_succ _, fun _ => he, fun _ => he⟩
  · by_cases h2 : todayFilled (todayOf now) s.rows
    · have he : sendDailyReminder now s = s := by
        unfold sendDailyReminder sendDailyReminderRun
        rw [if_neg h1, if_pos h2]
      exact ⟨by rw [he, he], by rw [he]; exact Nat.le_succ _,
        fun hc => absurd hc h1, fun _ => he⟩
    · have he : sendDailyReminder now s =
          { s with sentCount := s.sentCount + 1,
                   lastReminderDate := some (todayOf now) } := by
        unfold sendDailyReminder sendDailyReminderRun
        rw [if_neg h1, if_neg h2]
        rfl
      have hmark : ({ s with sentCount := s.sentCount + 1,
                             lastReminderDate := some (todayOf now) } :
          TrackerState).lastReminderDate = some (todayOf now) := rfl
      have he2 : sendDailyReminder now
          { s with sentCount := s.sentCount + 1,
                   lastReminderDate := some (todayOf now) } =
          { s with sentCount := s.sentCount + 1,
                   lastReminderDate := some (todayOf now) } := by
        unfold sendDailyReminder sendDailyReminderRun
        rw [if_pos hmark]
      exact ⟨by rw [he, he2], by rw [he], fun hc => absurd hc h1,
        fun hc => absurd hc h2⟩

/-- A state whose marker is already set to day 0 and whose single row is a
filled record for day 0. -/
def stateFilled : TrackerState :=
  { rows := [gymRowAt 0], lastReminderDate := some 0, sentCount := 5 }

/-- C3 (witness): on a state whose marker equals today and whose today row
is already filled, both skip conditions fire and the run is a strict
no-op, sending nothing. -/
theorem sendDailyReminder_at_most_once_witness :
    sendDailyReminder 0 stateFilled = stateFilled ∧
    (sendDailyReminder 0 stateFilled).sentCount ≤ stateFilled.sentCount + 1 := by
  refine ⟨(sendDailyReminder_at_most_once 0 stateFilled).2.2.1 (by decide), ?_⟩
  exact (sendDailyReminder_at_most_once 0 stateFilled).2.1

/-- C4: `addTodayRow` is idempotent — the second of two successive calls
with the same `now` finds the row the first call ensured and is a no-op —
and, provided the store held at most one row for today beforehand (the
invariant the guard maintains), two successive calls leave exactly one row
whose date formats to today's calendar date. -/
theorem addTodayRow_idempotent (now : Nat) (rows : List Row) :
    addTodayRow now (addTodayRow now rows) = addTodayRow now rows ∧
    (rows.countP (isTodayRow (todayOf now)) ≤ 1 →
      (addTodayRow now (addTodayRow now rows)).countP (isTodayRow (todayOf now)) = 1) := by
  have hfresh : isTodayRow (todayOf now) (freshRow now) = true := by
    simp [isTodayRow, freshRow, todayOf]
  by_cases h : rows.any (isTodayRow (todayOf now))
  · have heq : addTodayRow now rows = rows := by
      simp [addTodayRow, h]
    have hpos : 0 < rows.countP (isTodayRow (todayOf now)) := by
      rw [List.countP_pos_iff]
      exact List.any_eq_true.mp h
    refine ⟨by rw [heq, heq], fun hc => ?_⟩
    rw [heq, heq]
    omega
  · have heq : addTodayRow now rows = rows ++ [freshRow now] := by
      simp [addTodayRow, h]
    have h0 : rows.countP (isTodayRow (todayOf now)) = 0 := by
      rw [List.countP_eq_zero]
      intro a ha hp
      exact h (List.any_eq_true.mpr ⟨a, ha, hp⟩)
    have hany2 : (rows ++ [freshRow now]).any (isTodayRow (todayOf now)) = true := by
      simp [hfresh]
    have heq2 : addTodayRow now (rows ++ [freshRow now]) = rows ++ [freshRow now] := by
      simp [addTodayRow, hany2]
    refine ⟨by rw [heq, heq2], fun _ => ?_⟩
    rw [heq, heq2, List.countP_append, h0]
    simp [hfresh]

/-- C4 (witness): starting from the empty store (zero rows for today), two
successive calls for day 0 leave exactly one row for day 0, and the second
call changes nothing. -/
theorem addTodayRow_idempotent_witness :
    addTodayRow 0 (addTodayRow 0 []) = addTodayRow 0 [] ∧
    (addTodayRow 0 (addTodayRow 0 [])).countP (isTodayRow (todayOf 0)) = 1 :=
  ⟨(addTodayRow_idempotent 0 []).1, (addTodayRow_idempotent 0 []).2 (by decide)⟩

/-- C10: when a row for today already exists `addTodayRow` leaves the
store entirely unchanged; when none exists it appends, after the last
existing row, a single new row in which only the date field is populated —
every other field is the blank cell and every pre-existing row is
untouched. -/
theorem addTodayRow_frame (now : Nat) (rows : List Row) :
    (rows.any (isTodayRow (todayOf now)) = true → addTodayRow now rows = rows) ∧
    (rows.any (isTodayRow (todayOf now)) = false →
      addTodayRow now rows = rows ++
        [{ date := Cell.date now, exerciseType := Cell.str "",
           exerciseMin := Cell.str "", beerCount := Cell.str "",
           weightKg := Cell.str "", notes := Cell.str "" }]) := by
  constructor <;> intro h <;> simp [addTodayRow, h, freshRow]

/-- C10 (witness): with a day-0 row present the call is the identity; on
the empty store it appends exactly the one date-only row. -/
theorem addTodayRow_frame_witness :
    addTodayRow 0 [freshRow 0] = [freshRow 0] ∧
    addTodayRow 0 [] = [] ++
      [{ date := Cell.date 0, exerciseType := Cell.str "",
         exerciseMin := Cell.str "", beerCount := Cell.str "",
         weightKg := Cell.str "", notes := Cell.str "" }] :=
  ⟨(addTodayRow_frame 0 [freshRow 0]).1 (by decide),
   (addTodayRow_frame 0 []).2 (by decide)⟩

/-- C5: when the mail transport fails, `sendDailyReminder` returns the
state — the `lastReminderDate` marker included — entirely unchanged, and
on the path where the send was actually attempted the exception propagates
to the caller; the marker is assigned today's date only after a successful
send. -/
theorem sendDailyReminder_marker_after_send (now : Nat) (s : TrackerState) :
    (sendDailyReminderRun false now s).2 = s ∧
    (s.lastReminderDate ≠ some (todayOf now) →
      todayFilled (todayOf now) s.rows = false →
      (sendDailyReminderRun false now s).1 = true ∧
      (sendDailyReminderRun true now s).2.lastReminderDate = some (todayOf now)) := by
  constructor
  · unfold sendDailyReminderRun
    split_ifs with hA hB hC
    · rfl
    · rfl
    · exact hC.elim
    · rfl
  · intro h1 h2
    unfold sendDailyReminderRun
    simp [h1, h2]

/-- The initial state: no rows, marker never set, nothing sent. -/
def stateEmpty : TrackerState :=
  { rows := [], lastReminderDate := none, sentCount := 0 }

/-- C5 (witness): on the fresh state at day 0 the send is attempted; a
failing transport propagates the error and leaves the marker untouched,
while a successful one sets the marker to day 0. -/
theorem sendDailyReminder_marker_after_send_witness :
    (sendDailyReminderRun false 0 stateEmpty).2 = stateEmpty ∧
    (sendDailyReminderRun false 0 stateEmpty).1 = true ∧
    (sendDailyReminderRun true 0 stateEmpty).2.lastReminderDate = some (todayOf 0) :=
  ⟨(sendDailyReminder_marker_after_send 0 stateEmpty).1,
   ((sendDailyReminder_marker_after_send 0 stateEmpty).2 (by decide) (by decide)).1,
   ((sendDailyReminder_marker_after_send 0 stateEmpty).2 (by decide) (by decide)).2⟩

/-- A gym record for day 0. -/
def rGym : Row :=
  gymRowAt 0

/-- A rest-day record for day 1. -/
def rRest : Row :=
  { freshRow 1440 with exerciseType := Cell.str "Rest Day" }

/-- C2 (counterexample): the streak functions read the rows in storage
order and never sort.  The store `[rRest, rGym]` is a permutation of its
date-sorted form `[rGym, rRest]`, yet `calculateExerciseStreak` returns 1
on the permutation and 0 on the sorted sequence, so applying the function
to a permutation does not yield the sorted-order result. -/
theorem streak_not_permutation_invariant :
    List.Perm [rRest, rGym] (sortByDate [rRest, rGym]) ∧
    sortByDate [rRest, rGym] = [rGym, rRest] ∧
    calculateExerciseStreak [rRest, rGym] = 1 ∧
    calculateExerciseStreak (sortByDate [rRest, rGym]) = 0 := by
  have hs : sortByDate [rRest, rGym] = [rGym, rRest] := by decide
  refine ⟨?_, hs, by decide, by decide⟩
  rw [hs]
  exact List.Perm.swap rGym rRest []

/-- C2 (amended): the engine performs no sort and processes the rows in
the order the store yields them; only when that order is already ascending
by date does each streak and window function agree with its value on the
date-sorted sequence (sorting is then the identity). -/
theorem aggregation_agrees_on_sorted_input (now : Nat) (l : List Row)
    (h : List.Sorted (fun a b => dateKey a ≤ dateKey b) l) :
    calculateExerciseStreak (sortByDate l) = calculateExerciseStreak l ∧
    calculateNoAlcoholStreak (sortByDate l) = calculateNoAlcoholStreak l ∧
    calculateLongestExerciseStreak (sortByDate l) = calculateLongestExerciseStreak l ∧
    getWeekStats_ now (sortByDate l) = getWeekStats_ now l ∧
    getMonthStats_ now (sortByDate l) = getMonthStats_ now l := by
  have hs : sortByDate l = l := List.Sorted.insertionSort_eq h
  rw [hs]
  exact ⟨rfl, rfl, rfl, rfl, rfl⟩

/-- C2 (witness): the two-day store listed in ascending date order is
sorted, and every aggregation agrees with its date-sorted value there. -/
theorem aggregation_agrees_on_sorted_input_witness :
    calculateExerciseStreak (sortByDate [rGym, rRest]) =
      calculateExerciseStreak [rGym, rRest] ∧
    calculateNoAlcoholStreak (sortByDate [rGym, rRest]) =
      calculateNoAlcoholStreak [rGym, rRest] ∧
    calculateLongestExerciseStreak (sortByDate [rGym, rRest]) =
      calculateLongestExerciseStreak [rGym, rRest] ∧
    getWeekStats_ 0 (sortByDate [rGym, rRest]) = getWeekStats_ 0 [rGym, rRest] ∧
    getMonthStats_ 0 (sortByDate [rGym, rRest]) = getMonthStats_ 0 [rGym, rRest] :=
  aggregation_agrees_on_sorted_input 0 [rGym, rRest] (by decide)

/-- One `getMonthStats_` iteration adds the characteristic values of the
three window predicates to the accumulator. -/
lemma monthStep_eq (cutoff : Nat) (acc : Nat × Nat × Nat) (r : Row) :
    monthStep cutoff acc r =
      (acc.1 + (if inMonthWindow cutoff r then 1 else 0),
       acc.2.1 + (if inMonthWindow cutoff r && isExerciseRow r then 1 else 0),
       acc.2.2 + (if inMonthWindow cutoff r && noAlcoholCell r.beerCount then 1 else 0)) := by
  cases hd : r.date with
  | date t =>
    by_cases hlt : normalizeDate t < cutoff
    · simp [monthStep, inMonthWindow, hd, hlt]
    · simp [monthStep, inMonthWindow, hd, hlt]
  | str s => simp [monthStep, inMonthWindow, hd]
  | num q => simp [monthStep, inMonthWindow, hd]
  | null => simp [monthStep, inMonthWindow, hd]

/-- The `getMonthStats_` loop computes the three declarative counts. -/
lemma monthStep_foldl (cutoff : Nat) (data : List Row) :
    ∀ a b c : Nat, data.foldl (monthStep cutoff) (a, b, c) =
      (a + data.countP (inMonthWindow cutoff),
       b + data.countP (fun r => inMonthWindow cutoff r && isExerciseRow r),
       c + data.countP (fun r => inMonthWindow cutoff r && noAlcoholCell r.beerCount)) := by
  induction data with
  | nil => intro a b c; simp
  | cons r rs ih =>
    intro a b c
    rw [List.foldl_cons, monthStep_eq, ih, List.countP_cons, List.countP_cons,
      List.countP_cons]
    simp only [Prod.mk.injEq]
    refine ⟨by omega, by omega, by omega⟩

/-- C7: `beerFreeRate` equals the integer percentage obtained by rounding
`noAlcoholDays / totalDays * 100` to the nearest integer (ties up, as
`toFixed(0)` does) whenever the thirty-day window holds at least one
record, and equals 0 when the window is empty — the division is guarded,
so no division error can arise (the function is total). -/
theorem getMonthStats_beerFreeRate (now : Nat) (data : List Row) :
    (getMonthStats_ now data).beerFreeRate =
      (if 0 < data.countP (inMonthWindow (thirtyDaysAgoOf now)) then
        roundHalfUp
          (data.countP (fun r => inMonthWindow (thirtyDaysAgoOf now) r &&
            noAlcoholCell r.beerCount) * 100)
          (data.countP (inMonthWindow (thirtyDaysAgoOf now)))
      else 0) := by
  unfold getMonthStats_
  rw [monthStep_foldl]
  simp

/-- Rows outside the week window leave the `getWeekStats_` accumulator
unchanged. -/
lemma weekStep_skip (monday : Nat) (acc : WeekAcc) (r : Row)
    (h : inWeekWindow monday r = false) : weekStep monday acc r = acc := by
  cases hd : r.date with
  | date t =>
    rw [inWeekWindow, hd] at h
    simp only [decide_eq_false_iff_not, Decidable.not_not] at h
    simp [weekStep, hd, h]
  | str s => simp [weekStep, hd]
  | num q => simp [weekStep, hd]
  | null => simp [weekStep, hd]

/-- The `getWeekStats_` loop ignores every row failing the window test:
folding over the rows equals folding over the filtered rows. -/
lemma weekStep_foldl_filter (monday : Nat) (data : List Row) :
    ∀ acc : WeekAcc, data.foldl (weekStep monday) acc =
      (data.filter (inWeekWindow monday)).foldl (weekStep monday) acc := by
  induction data with
  | nil => intro acc; rfl
  | cons r rs ih =>
    intro acc
    cases hb : inWeekWindow monday r with
    | false =>
      rw [List.foldl_cons, weekStep_skip monday acc r hb]
      simp [List.filter_cons, hb, ih]
    | true =>
      simp [List.filter_cons, hb, List.foldl_cons, ih]

/-- The week-window lower bound is aligned to the start of a day. -/
lemma mondayOf_normalized (now : Nat) : normalizeDate (mondayOf now) = mondayOf now := by
  unfold mondayOf normalizeDate
  generalize (now / 1440 - (if dayOfWeek now = 0 then 6 else dayOfWeek now - 1)) = k
  omega

/-- Once at least a full week has elapsed, the most recent Monday is a
positive timestamp. -/
lemma mondayOf_pos (now : Nat) (h : 7 ≤ now / 1440) : 1440 ≤ mondayOf now := by
  have hb : dayOfWeek now < 7 := Nat.mod_lt _ (by norm_num)
  unfold mondayOf
  by_cases hd : dayOfWeek now = 0
  · rw [if_pos hd]
    omega
  · rw [if_neg hd]
    omega

/-- One minute before a day-aligned positive timestamp normalizes to the
previous day, strictly below the boundary. -/
lemma normalize_pred_lt (m : Nat) (hm : normalizeDate m = m) (h1 : 1 ≤ m) :
    normalizeDate (m - 1) < m := by
  unfold normalizeDate at hm ⊢
  omega

/-- C6 (amended): `getWeekStats_` aggregates exactly the rows whose date
cell is a `Date` with normalized value at or after the most recent Monday
at 00:00 (`mondayOffset = dayOfWeek == Sunday ? 6 : dayOfWeek - 1`, at
start of day) — with no upper bound at `now`.  A record dated exactly at
Monday 00:00 is included and a record dated the preceding Sunday 23:59 is
excluded. -/
theorem getWeekStats_window (now : Nat) (data : List Row) (h : 7 ≤ now / 1440) :
    getWeekStats_ now data =
      getWeekStats_ now (data.filter (inWeekWindow (mondayOf now))) ∧
    (getWeekStats_ now [gymRowAt (mondayOf now)]).exerciseDays = 1 ∧
    (getWeekStats_ now [gymRowAt (mondayOf now - 1)]).exerciseDays = 0 := by
  have hm : normalizeDate (mondayOf now) = mondayOf now := mondayOf_normalized now
  refine ⟨?_, ?_, ?_⟩
  · have hF : data.foldl (weekStep (mondayOf now)) ⟨0, 0, 0, []⟩ =
        (data.filter (inWeekWindow (mondayOf now))).foldl
          (weekStep (mondayOf now)) ⟨0, 0, 0, []⟩ :=
      weekStep_foldl_filter (mondayOf now) data ⟨0, 0, 0, []⟩
    unfold getWeekStats_
    rw [hF]
  · have hlt : ¬ normalizeDate (mondayOf now) < mondayOf now := by
      rw [hm]
      exact Nat.lt_irrefl _
    simp [getWeekStats_, weekStep, gymRowAt, freshRow, hlt, isExerciseRow,
      isExerciseCell, truthy]
  · have hlt2 : normalizeDate (mondayOf now - 1) < mondayOf now :=
      normalize_pred_lt (mondayOf now) hm
        (le_trans (by norm_num) (mondayOf_pos now h))
    simp [getWeekStats_, weekStep, gymRowAt, freshRow, hlt2]

/-- C6 (witness): at `now` = minute 10080 (the very start of day 7, a
Thursday) the filter characterization and both boundary facts hold for a
one-row store. -/
theorem getWeekStats_window_witness :
    getWeekStats_ 10080 [gymRowAt 0] =
      getWeekStats_ 10080 ([gymRowAt 0].filter (inWeekWindow (mondayOf 10080))) ∧
    (getWeekStats_ 10080 [gymRowAt (mondayOf 10080)]).exerciseDays = 1 ∧
    (getWeekStats_ 10080 [gymRowAt (mondayOf 10080 - 1)]).exerciseDays = 0 :=
  getWeekStats_window 10080 [gymRowAt 0] (by decide)

/-- C6 (counterexample): at `now` = minute 16440 (a Monday, 10:00) the
window's lower bound is minute 15840, and a record dated minute 17880 —
a day whose normalized date lies strictly after `now` — is nevertheless
counted by `getWeekStats_`: the loop enforces no upper bound at `now`, so
the window is not "Monday 00:00 through now". -/
theorem getWeekStats_counts_after_now :
    mondayOf 16440 = 15840 ∧
    16440 < normalizeDate 17880 ∧
    (getWeekStats_ 16440 [gymRowAt 17880]).exerciseDays = 1 := by
  decide

/-- A record for day 0 whose beer cell holds the given value. -/
def beerRow (c : Cell) : Row :=
  { freshRow 0 with beerCount := c }

/-- C8 (counterexample): a malformed (non-numeric, non-empty, non-null)
`beerCount` is not treated as absent in day classification: an absent
beer cell yields a no-alcohol streak of 1, while the malformed value
`"abc"` is classified as a drinking day and yields 0. -/
theorem noAlcoholStreak_malformed_not_absent :
    calculateNoAlcoholStreak [beerRow (Cell.str "abc")] = 0 ∧
    calculateNoAlcoholStreak [beerRow (Cell.str "")] = 1 := by
  decide

/-- Keep numeric cells and blank everything else, as the aggregation
guards `typeof x === "number"` effectively do. -/
def keepNum : Cell → Cell
  | Cell.num q => Cell.num q
  | _ => Cell.str ""

/-- Blank every malformed (non-numeric) value of the three numeric fields
of a row. -/
def blankMalformed (r : Row) : Row :=
  { r with exerciseMin := keepNum r.exerciseMin, beerCount := keepNum r.beerCount,
           weightKg := keepNum r.weightKg }

/-- C8 (amended): non-numeric `exerciseMinutes`, `beerCount` and
`weightKg` values are excluded from the weekly sums and averages —
blanking every malformed numeric field leaves `getWeekStats_` unchanged —
and the aggregation functions are total, so malformed values never make
them throw.  (Day classification is the exception recorded by the
counterexample: a malformed `beerCount` counts as a drinking day.) -/
theorem getWeekStats_malformed_absent (now : Nat) (data : List Row) :
    getWeekStats_ now data = getWeekStats_ now (data.map blankMalformed) := by
  have hstep : ∀ (acc : WeekAcc) (r : Row),
      weekStep (mondayOf now) acc (blankMalformed r) =
        weekStep (mondayOf now) acc r := by
    intro acc r
    cases hd : r.date with
    | date t =>
      by_cases hlt : normalizeDate t < mondayOf now
      · simp [weekStep, blankMalformed, hd, hlt]
      · cases hm : r.exerciseMin <;> cases hb : r.beerCount <;>
          cases hw : r.weightKg <;>
          simp [weekStep, blankMalformed, keepNum, hd, hlt, hm, hb, hw,
            isExerciseRow]
    | str s => simp [weekStep, blankMalformed, hd]
    | num q => simp [weekStep, blankMalformed, hd]
    | null => simp [weekStep, blankMalformed, hd]
  have hfun : (fun (acc : WeekAcc) (r : Row) =>
      weekStep (mondayOf now) acc (blankMalformed r)) = weekStep (mondayOf now) :=
    funext fun acc => funext fun r => hstep acc r
  unfold getWeekStats_
  rw [List.foldl_map, hfun]

end HabitTracker
